import Mathlib

/-!
# Media enrichment pipeline of `wa-analyzer` (src/main.go)

A shallow embedding of the two enrichment passes of `main.go`:

* `getMediaAndMessageFileCount` (lines 217-229),
* `getMetadataInformation` (pass 1, lines 246-287),
* `generateAudioTranscripts` (pass 2, lines 289-367).

Go's nullable pointers become `Option`.  The filesystem, the `ffprobe`
duration probe and the external `whisper` process are not part of the
program; they are taken as arguments (`FS`, `Engine`).  Pass 1 only reads the
filesystem.  Pass 2 runs the engine, which may change the filesystem in any
way, so the filesystem is threaded through the loop as state.  The progress
bar is modelled by the number of `bar.Add(1)` calls made so far.
-/

namespace WaAnalyzer

/-! ## Data model (lines 59-104) -/

/-- A `float32` value, kept as its bit pattern: the pipeline only copies it. -/
structure Float32 where
  bits : Nat
deriving DecidableEq, Repr

/-- A `float64` value, kept as its bit pattern: the pipeline only copies it. -/
structure Float64 where
  bits : Nat
deriving DecidableEq, Repr

/-- The constant `MimeTypeOpus` (line 22). -/
def MimeTypeOpus : String := "audio/ogg; codecs=opus"

/-- The struct `GeoPosition` (lines 59-63). -/
structure GeoPosition where
  Latitude : Option Float32
  Longitude : Option Float32
  MessageId : Option Int
deriving DecidableEq, Repr

/-- The struct `Media` (lines 65-73). -/
structure Media where
  FilePath : Option String
  MediaJobUuid : Option String
  MessageId : Option Int
  MimeType : Option String
  Transcription : Option String
  AudioLengthSeconds : Option Float64
  FileSizeByte : Option Int
deriving DecidableEq, Repr

/-- The struct `SenderContact` (lines 75-79). -/
structure SenderContact where
  Name : Option String
  Number : Option String
  RawStringJid : Option String
deriving DecidableEq, Repr

/-- The struct `Message` (lines 81-92). -/
structure Message where
  ChatId : Option Int
  FromMe : Option Int
  GeoPosition : Option GeoPosition
  KeyId : Option String
  Media : Option Media
  MessageId : Option Int
  ReplyTo : Option String
  SenderContact : Option SenderContact
  TextData : Option String
  Timestamp : Option Int
deriving DecidableEq, Repr

/-- The struct `ChatTitle` (lines 94-98). -/
structure ChatTitle where
  Name : Option String
  Number : Option String
  RawStringJid : Option String
deriving DecidableEq, Repr

/-- The struct `Chat` (lines 100-104).  `Messages` is a slice of pointers, so
an entry may be nil. -/
structure Chat where
  ChatId : Option Int
  ChatTitle : Option ChatTitle
  Messages : List (Option Message)
deriving DecidableEq, Repr

/-! ## The environment: filesystem, duration probe, transcription engine -/

/-- The error classes the code tells apart with `errors.Is`:
`os.ErrNotExist`, `os.ErrExist`, and every other error. -/
inductive FsErr where
  | notExist
  | exist
  | other
deriving DecidableEq, Repr

deriving instance DecidableEq for Except

/-- What the program can observe of the outside world at one moment.
`stat p` is `os.Stat(p)` (the size on success), `readFile p` is
`os.ReadFile(p)` converted with `string(...)`, `probe p` is
`ffprobe.GetProbeData(p, 5*time.Second)` reduced to
`data.Format.DurationSeconds` (`none` when the probe returns an error). -/
structure FS where
  stat : String → Except FsErr Int
  readFile : String → Except FsErr String
  probe : String → Option Float64

/-- One run of `exec.Command("whisper", args...).Run()` in a given filesystem:
whether `Run` returned a nil error, and the filesystem afterwards. -/
abbrev Engine := FS → List String → Bool × FS

/-! ## Library functions used by the passes -/

/-- Go's `unicode.IsSpace`: the Latin-1 spaces `\t \n \v \f \r`, space,
U+0085, U+00A0, and the code points with the White_Space property. -/
def isSpace (c : Char) : Bool :=
  let n := c.toNat
  (9 ≤ n && n ≤ 13) || n = 32 || n = 0x85 || n = 0xA0 || n = 0x1680 ||
  (0x2000 ≤ n && n ≤ 0x200A) || n = 0x2028 || n = 0x2029 || n = 0x202F ||
  n = 0x205F || n = 0x3000

/-- Go's `strings.TrimSpace`: drop the leading and the trailing white space. -/
def TrimSpace (s : String) : String :=
  String.mk ((s.data.dropWhile isSpace).reverse.dropWhile isSpace).reverse

/-- The expression `absPath[:strings.LastIndex(absPath, "/")]` (line 333): the
text before the last slash.  `absPath` always contains a slash (line 311). -/
def outputDir (absPath : String) : String :=
  String.mk ((absPath.data.reverse.dropWhile (fun c => c.toNat != 47)).drop 1).reverse

/-! ## `getMediaAndMessageFileCount` (lines 217-229) -/

/-- The loop of `getMediaAndMessageFileCount`, started from the counters
`(cnt, opusCnt)`. -/
def countLoop : List (Option Message) → Nat × Nat → Nat × Nat
  | [], acc => acc
  | message :: rest, (cnt, opusCnt) =>
    match message with
    | none => countLoop rest (cnt, opusCnt)
    | some msg =>
      match msg.Media with
      | none => countLoop rest (cnt, opusCnt)
      | some media =>
        match media.FilePath with
        | none => countLoop rest (cnt, opusCnt)
        | some _ =>
          if media.MimeType = some MimeTypeOpus then
            countLoop rest (cnt + 1, opusCnt + 1)
          else
            countLoop rest (cnt + 1, opusCnt)

/-- The function `getMediaAndMessageFileCount`: media messages, opus media
messages. -/
def getMediaAndMessageFileCount (chat : Chat) : Nat × Nat :=
  countLoop chat.Messages (0, 0)

/-! ## `getMetadataInformation` (pass 1, lines 246-287) -/

/-- Lines 270-276: read the sidecar `absPath + ".txt"`.  An error other than
`os.ErrNotExist` is logged and the transcription is left alone; otherwise
(success, or `os.ErrNotExist`, where `os.ReadFile` returns nil bytes) the
transcription is set to the trimmed text. -/
def readSidecar (fs : FS) (absPath : String) (media : Media) : Media :=
  match fs.readFile (absPath ++ ".txt") with
  | .error .notExist => { media with Transcription := some (TrimSpace "") }
  | .error _ => media
  | .ok transcription => { media with Transcription := some (TrimSpace transcription) }

/-- Lines 278-285: probe the duration; on error the media is left alone. -/
def probeDuration (fs : FS) (absPath : String) (media : Media) : Media :=
  match fs.probe absPath with
  | none => media
  | some length => { media with AudioLengthSeconds := some length }

/-- The body of the loop of `getMetadataInformation` for one message: the
message afterwards and the progress counter afterwards. -/
def metadataStep (workdir : String) (fs : FS) (bar : Nat) :
    Option Message → Option Message × Nat
  | none => (none, bar)
  | some msg =>
    match msg.Media with
    | none => (some msg, bar)
    | some media =>
      match media.FilePath with
      | none => (some msg, bar)
      | some path =>
        let bar := bar + 1
        let absPath := workdir ++ "/" ++ path
        match fs.stat absPath with
        | .error _ => (some msg, bar)
        | .ok fileSize =>
          let media := { media with FileSizeByte := some fileSize }
          if media.MimeType.isSome && media.MimeType != some MimeTypeOpus then
            (some { msg with Media := some media }, bar)
          else
            let media := readSidecar fs absPath media
            let media := probeDuration fs absPath media
            (some { msg with Media := some media }, bar)

/-- The loop of `getMetadataInformation` over the messages. -/
def metadataLoop (workdir : String) (fs : FS) :
    Nat → List (Option Message) → List (Option Message) × Nat
  | bar, [] => ([], bar)
  | bar, message :: rest =>
    let r := metadataStep workdir fs bar message
    let t := metadataLoop workdir fs r.2 rest
    (r.1 :: t.1, t.2)

/-- The function `getMetadataInformation`: the chat afterwards and the final
value of the progress counter.  `fileCount` is only the maximum of the bar. -/
def getMetadataInformation (fs : FS) (chat : Chat) (workdir : String) (_fileCount : Nat) :
    Chat × Nat :=
  let r := metadataLoop workdir fs 0 chat.Messages
  ({ chat with Messages := r.1 }, r.2)

/-! ## `generateAudioTranscripts` (pass 2, lines 289-367) -/

/-- The switch on `quality` (lines 293-303). -/
def modelSize (quality : String) : String :=
  if quality = "low" then "small"
  else if quality = "medium" then "medium"
  else if quality = "high" then "large"
  else "medium"

/-- The argument vector handed to `whisper` (lines 328-339). -/
def whisperArgs (absPath sz language : String) : List String :=
  let args := [absPath, "--model", sz, "--output_dir", outputDir absPath]
  if language != "" then args ++ ["--language", language] else args

/-- The state threaded through the loop of pass 2: the filesystem, the number
of `bar.Add(1)` calls so far, and the argument vectors of the engine runs so
far, oldest first. -/
structure TranscriptState where
  fs : FS
  bar : Nat
  calls : List (List String)

/-- Lines 325-365, for an Opus media whose checks on lines 306-323 passed:
run the engine when `errNotExist || force`, then read the sidecar back. -/
def transcribeAndRead (engine : Engine) (sz language : String) (force : Bool)
    (st : TranscriptState) (msg : Message) (media : Media) (absPath : String)
    (errNotExist : Bool) : Option Message × TranscriptState :=
  let run : Bool × TranscriptState :=
    if errNotExist || force then
      let args := whisperArgs absPath sz language
      let r := engine st.fs args
      (r.1, { st with fs := r.2, calls := st.calls ++ [args] })
    else
      (true, st)
  if !run.1 then
    (some msg, run.2)
  else
    match run.2.fs.readFile (absPath ++ ".txt") with
    | .error _ => (some msg, run.2)
    | .ok transStr =>
      (some { msg with Media := some { media with Transcription := some transStr } },
        { run.2 with bar := run.2.bar + 1 })

/-- The body of the loop of `generateAudioTranscripts` for one message. -/
def transcriptStep (engine : Engine) (workdir sz language : String) (force : Bool)
    (st : TranscriptState) : Option Message → Option Message × TranscriptState
  | none => (none, st)
  | some msg =>
    match msg.Media with
    | none => (some msg, st)
    | some media =>
      match media.FilePath with
      | none => (some msg, st)
      | some path =>
        if media.MimeType.isNone || media.MimeType != some MimeTypeOpus then
          (some msg, st)
        else
          let absPath := workdir ++ "/" ++ path
          match st.fs.stat absPath with
          | .error .notExist => (some msg, st)
          | _ =>
            match st.fs.stat (absPath ++ ".txt") with
            | .error .notExist => transcribeAndRead engine sz language force st msg media absPath true
            | .error .other => (some msg, st)
            | _ => transcribeAndRead engine sz language force st msg media absPath false

/-- The loop of `generateAudioTranscripts` over the messages. -/
def transcriptLoop (engine : Engine) (workdir sz language : String) (force : Bool) :
    TranscriptState → List (Option Message) → List (Option Message) × TranscriptState
  | st, [] => ([], st)
  | st, message :: rest =>
    let r := transcriptStep engine workdir sz language force st message
    let t := transcriptLoop engine workdir sz language force r.2 rest
    (r.1 :: t.1, t.2)

/-- The function `generateAudioTranscripts`: the chat afterwards and the final
state (filesystem, progress counter, engine runs).  `opusFileCount` is only
the maximum of the bar; `bar.Set(0)` starts the counter at zero. -/
def generateAudioTranscripts (engine : Engine) (fs : FS) (chat : Chat)
    (quality language workdir : String) (_opusFileCount : Nat) (force : Bool) :
    Chat × TranscriptState :=
  let sz := modelSize quality
  let r := transcriptLoop engine workdir sz language force ⟨fs, 0, []⟩ chat.Messages
  ({ chat with Messages := r.1 }, r.2)

/-- The state in which the loop of `generateAudioTranscripts` reaches the
message at index `i`: the state after the first `i` messages. -/
def stateBefore (engine : Engine) (fs : FS) (chat : Chat)
    (quality language workdir : String) (force : Bool) (i : Nat) : TranscriptState :=
  (transcriptLoop engine workdir (modelSize quality) language force ⟨fs, 0, []⟩
    (chat.Messages.take i)).2

/-! ## The pipeline of `main` (lines 127-133) -/

/-- What `main` hands to the sink, with the observations of both passes. -/
structure Enriched where
  chat : Chat
  fileCount : Nat
  opusFileCount : Nat
  metadataBar : Nat
  transcript : Option TranscriptState

/-- Lines 127-133 of `main`: count, pass 1, and pass 2 when
`transcriptAudioFiles` is set. -/
def enrich (engine : Engine) (fs : FS) (chat : Chat) (workdir : String)
    (transcriptAudioFiles : Bool) (quality language : String) (force : Bool) : Enriched :=
  let counts := getMediaAndMessageFileCount chat
  let r1 := getMetadataInformation fs chat workdir counts.1
  if transcriptAudioFiles then
    let r2 := generateAudioTranscripts engine fs r1.1 quality language workdir counts.2 force
    ⟨r2.1, counts.1, counts.2, r1.2, some r2.2⟩
  else
    ⟨r1.1, counts.1, counts.2, r1.2, none⟩

/-! ## The frame of the enrichment passes -/

/-- What a pass may do to a media record: file path, job uuid, message id and
MIME type stay as they are, and none of `Transcription`,
`AudioLengthSeconds`, `FileSizeByte` goes from present to absent. -/
def MediaFrame (a b : Media) : Prop :=
  b.FilePath = a.FilePath ∧ b.MediaJobUuid = a.MediaJobUuid ∧ b.MessageId = a.MessageId ∧
  b.MimeType = a.MimeType ∧
  (a.Transcription.isSome → b.Transcription.isSome) ∧
  (a.AudioLengthSeconds.isSome → b.AudioLengthSeconds.isSome) ∧
  (a.FileSizeByte.isSome → b.FileSizeByte.isSome)

/-- What a pass may do to an entry of `Messages`: a nil entry, a message with
no media and a message whose media has no file path stay as they are; any
other message changes at most in its media record, within `MediaFrame`. -/
def MessageFrame (a b : Option Message) : Prop :=
  match a with
  | none => b = none
  | some msg =>
    match msg.Media with
    | none => b = some msg
    | some media =>
      match media.FilePath with
      | none => b = some msg
      | some _ =>
        ∃ media1 : Media, MediaFrame media media1 ∧ b = some { msg with Media := some media1 }

/-- What a pass may do to a chat: id and title stay, and the messages stay in
number and order, each within `MessageFrame`. -/
def ChatFrame (a b : Chat) : Prop :=
  b.ChatId = a.ChatId ∧ b.ChatTitle = a.ChatTitle ∧
  List.Forall₂ MessageFrame a.Messages b.Messages

/-! ## Concrete inputs used in the evaluations below -/

/-- A media record with only a path and a MIME type. -/
def mkMedia (path : String) (mime : Option String) : Media :=
  ⟨some path, none, none, mime, none, none, none⟩

/-- A message carrying only a media record. -/
def mkMessage (media : Media) : Message :=
  ⟨none, none, none, none, some media, none, none, none, none, none⟩

/-- A chat of one voice message `voice1.opus`. -/
def voiceChat : Chat :=
  ⟨none, none, [some (mkMessage (mkMedia "voice1.opus" (some MimeTypeOpus)))]⟩

/-- An engine that fails and leaves the filesystem alone. -/
def idleEngine : Engine := fun fs _ => (false, fs)

/-- A filesystem with no file at all. -/
def emptyFS : FS :=
  ⟨fun _ => .error .notExist, fun _ => .error .notExist, fun _ => none⟩

/-- An engine that succeeds and leaves the filesystem alone. -/
def okEngine : Engine := fun fs _ => (true, fs)

/-- An engine that succeeds and writes `content` to the sidecar of its first
argument. -/
def writingEngine (content : String) : Engine := fun fs args =>
  match args with
  | [] => (false, fs)
  | p :: _ =>
    (true,
      ⟨fun q => if q = p ++ ".txt" then .ok content.utf8ByteSize else fs.stat q,
       fun q => if q = p ++ ".txt" then .ok content else fs.readFile q,
       fs.probe⟩)

/-- A filesystem holding the voice file `w/voice1.opus` (4096 bytes, 10.0
seconds) and no sidecar. -/
def voiceFS : FS :=
  ⟨fun p => if p = "w/voice1.opus" then .ok 4096 else .error .notExist,
   fun _ => .error .notExist,
   fun p => if p = "w/voice1.opus" then some ⟨0x4024000000000000⟩ else none⟩

/-- The filesystem `voiceFS` with the sidecar `w/voice1.opus.txt` holding
`hello` and a newline. -/
def helloFS : FS :=
  ⟨fun p => if p = "w/voice1.opus" then .ok 4096
      else if p = "w/voice1.opus.txt" then .ok 6 else .error .notExist,
   fun p => if p = "w/voice1.opus.txt" then .ok "hello\n" else .error .notExist,
   fun p => if p = "w/voice1.opus" then some ⟨0x4024000000000000⟩ else none⟩

/-- The filesystem `voiceFS` where the stat of the sidecar fails with an error
that is neither `os.ErrNotExist` nor `os.ErrExist`. -/
def brokenSidecarFS : FS :=
  ⟨fun p => if p = "w/voice1.opus" then .ok 4096
      else if p = "w/voice1.opus.txt" then .error .other else .error .notExist,
   fun _ => .error .other,
   fun p => if p = "w/voice1.opus" then some ⟨0x4024000000000000⟩ else none⟩

/-- A chat of one message whose media `voice1.opus` has no MIME type. -/
def untypedChat : Chat :=
  ⟨none, none, [some (mkMessage (mkMedia "voice1.opus" none))]⟩

/-- A filesystem holding the picture `w/img1.jpg` of 2048 bytes and nothing
else. -/
def imageFS : FS :=
  ⟨fun p => if p = "w/img1.jpg" then .ok 2048 else .error .notExist,
   fun _ => .error .notExist, fun _ => none⟩

/-- A chat of one picture message `img1.jpg`. -/
def imageChat : Chat :=
  ⟨none, none, [some (mkMessage (mkMedia "img1.jpg" (some "image/jpeg")))]⟩

/-- A chat of two voice messages: `voice1.opus`, then `voice2.opus`. -/
def twoVoiceChat : Chat :=
  ⟨none, none, [some (mkMessage (mkMedia "voice1.opus" (some MimeTypeOpus))),
    some (mkMessage (mkMedia "voice2.opus" (some MimeTypeOpus)))]⟩

/-- The media record of the message at index `i`, if there is one. -/
def mediaAt (chat : Chat) (i : Nat) : Option Media :=
  match chat.Messages[i]? with
  | some (some msg) => msg.Media
  | _ => none

/-! ## Lemmas on pass 1 -/

theorem metadataStep_fst (workdir : String) (fs : FS) (bar : Nat) (m : Option Message) :
    (metadataStep workdir fs bar m).1 = (metadataStep workdir fs 0 m).1 := by
  unfold metadataStep
  split
  · rfl
  · split
    · rfl
    · split
      · rfl
      · dsimp only
        split
        · rfl
        · split <;> rfl

theorem metadataLoop_fst (workdir : String) (fs : FS) (bar : Nat) (msgs : List (Option Message)) :
    (metadataLoop workdir fs bar msgs).1 = msgs.map (fun m => (metadataStep workdir fs 0 m).1) := by
  induction msgs generalizing bar with
  | nil => rfl
  | cons m rest ih =>
    simp only [metadataLoop, List.map_cons, ih]
    rw [metadataStep_fst]

theorem metadata_getElem (fs : FS) (chat : Chat) (workdir : String) (fileCount i : Nat) :
    (getMetadataInformation fs chat workdir fileCount).1.Messages[i]? =
      (chat.Messages[i]?).map (fun m => (metadataStep workdir fs 0 m).1) := by
  simp [getMetadataInformation, metadataLoop_fst]

theorem probeDuration_size (fs : FS) (absPath : String) (media : Media) :
    (probeDuration fs absPath media).FileSizeByte = media.FileSizeByte := by
  unfold probeDuration; split <;> rfl

theorem readSidecar_size (fs : FS) (absPath : String) (media : Media) :
    (readSidecar fs absPath media).FileSizeByte = media.FileSizeByte := by
  unfold readSidecar; split <;> rfl

theorem readSidecar_length (fs : FS) (absPath : String) (media : Media) :
    (readSidecar fs absPath media).AudioLengthSeconds = media.AudioLengthSeconds := by
  unfold readSidecar; split <;> rfl

/-- Running the loop body of pass 1 on its own output changes nothing, and
advances the counter as it does on the input. -/
theorem metadataStep_idem (workdir : String) (fs : FS) (bar bar0 : Nat) (m : Option Message) :
    metadataStep workdir fs bar (metadataStep workdir fs bar0 m).1 =
      ((metadataStep workdir fs bar0 m).1, (metadataStep workdir fs bar m).2) := by
  rcases m with _ | msg
  · rfl
  · rcases hM : msg.Media with _ | media
    · simp [metadataStep, hM]
    · rcases hP : media.FilePath with _ | path
      · simp [metadataStep, hM, hP]
      · cases hS : fs.stat (workdir ++ "/" ++ path) with
        | error e => simp [metadataStep, hM, hP, hS]
        | ok size =>
          by_cases hg : (media.MimeType.isSome && media.MimeType != some MimeTypeOpus) = true
          · simp [metadataStep, hM, hP, hS, hg]
          · rcases hR : fs.readFile (workdir ++ "/" ++ path ++ ".txt") with (_ | _ | _) | text <;>
              rcases hD : fs.probe (workdir ++ "/" ++ path) with _ | length <;>
              simp [metadataStep, hM, hP, hS, hg, readSidecar, probeDuration, hR, hD]

theorem metadataLoop_idem (workdir : String) (fs : FS) (bar bar0 : Nat)
    (msgs : List (Option Message)) :
    metadataLoop workdir fs bar (metadataLoop workdir fs bar0 msgs).1 =
      ((metadataLoop workdir fs bar0 msgs).1, (metadataLoop workdir fs bar msgs).2) := by
  induction msgs generalizing bar bar0 with
  | nil => rfl
  | cons m rest ih =>
    simp only [metadataLoop, metadataStep_idem, ih]

theorem countLoop_acc (msgs : List (Option Message)) (cnt opusCnt : Nat) :
    countLoop msgs (cnt, opusCnt) =
      (cnt + (countLoop msgs (0, 0)).1, opusCnt + (countLoop msgs (0, 0)).2) := by
  induction msgs generalizing cnt opusCnt with
  | nil => rfl
  | cons m rest ih =>
    rcases m with _ | msg
    · simpa [countLoop] using ih cnt opusCnt
    · rcases hM : msg.Media with _ | media
      · simpa [countLoop, hM] using ih cnt opusCnt
      · rcases hP : media.FilePath with _ | path
        · simpa [countLoop, hM, hP] using ih cnt opusCnt
        · by_cases ho : media.MimeType = some MimeTypeOpus
          · simp only [countLoop, hM, hP, ho, if_true]
            rw [ih (cnt + 1) (opusCnt + 1), ih (0 + 1) (0 + 1)]
            simp only [Prod.mk.injEq]
            omega
          · simp only [countLoop, hM, hP, ho, if_false]
            rw [ih (cnt + 1) opusCnt, ih (0 + 1) 0]
            simp only [Prod.mk.injEq]
            omega

/-- Pass 1 advances its counter once for every message that
`getMediaAndMessageFileCount` counts. -/
theorem metadataLoop_bar (workdir : String) (fs : FS) (bar : Nat)
    (msgs : List (Option Message)) :
    (metadataLoop workdir fs bar msgs).2 = bar + (countLoop msgs (0, 0)).1 := by
  induction msgs generalizing bar with
  | nil => rfl
  | cons m rest ih =>
    simp only [metadataLoop]
    rw [ih]
    rcases m with _ | msg
    · simp [metadataStep, countLoop]
    · rcases hM : msg.Media with _ | media
      · simp [metadataStep, countLoop, hM]
      · rcases hP : media.FilePath with _ | path
        · simp [metadataStep, countLoop, hM, hP]
        · have hbar : (metadataStep workdir fs bar (some msg)).2 = bar + 1 := by
            simp only [metadataStep, hM, hP]
            split
            · rfl
            · split <;> rfl
          rw [hbar]
          by_cases ho : media.MimeType = some MimeTypeOpus
          · simp only [countLoop, hM, hP, ho, if_true]
            rw [countLoop_acc rest (0 + 1) (0 + 1)]
            simp only
            omega
          · simp only [countLoop, hM, hP, ho, if_false]
            rw [countLoop_acc rest (0 + 1) 0]
            simp only
            omega

/-! ## Lemmas on pass 2 -/

theorem transcriptLoop_append (engine : Engine) (workdir sz language : String) (force : Bool)
    (st : TranscriptState) (xs ys : List (Option Message)) :
    transcriptLoop engine workdir sz language force st (xs ++ ys) =
      ((transcriptLoop engine workdir sz language force st xs).1 ++
        (transcriptLoop engine workdir sz language force
          (transcriptLoop engine workdir sz language force st xs).2 ys).1,
       (transcriptLoop engine workdir sz language force
          (transcriptLoop engine workdir sz language force st xs).2 ys).2) := by
  induction xs generalizing st with
  | nil => simp [transcriptLoop]
  | cons x rest ih => simp [transcriptLoop, ih]

theorem transcriptLoop_length (engine : Engine) (workdir sz language : String) (force : Bool)
    (st : TranscriptState) (xs : List (Option Message)) :
    (transcriptLoop engine workdir sz language force st xs).1.length = xs.length := by
  induction xs generalizing st with
  | nil => simp [transcriptLoop]
  | cons x rest ih => simp [transcriptLoop, ih]

/-- The loop at index `i`: the output message and the next state are those of
the loop body run in the state reached after the first `i` messages. -/
theorem transcriptLoop_at (engine : Engine) (workdir sz language : String) (force : Bool)
    (st : TranscriptState) (xs : List (Option Message)) (i : Nat) (m : Option Message)
    (hm : xs[i]? = some m) :
    (transcriptLoop engine workdir sz language force st xs).1[i]? =
        some (transcriptStep engine workdir sz language force
          (transcriptLoop engine workdir sz language force st (xs.take i)).2 m).1 ∧
    (transcriptLoop engine workdir sz language force st (xs.take (i + 1))).2 =
        (transcriptStep engine workdir sz language force
          (transcriptLoop engine workdir sz language force st (xs.take i)).2 m).2 := by
  induction xs generalizing st i with
  | nil => simp at hm
  | cons x rest ih =>
    cases i with
    | zero =>
      simp only [List.getElem?_cons_zero, Option.some.injEq] at hm
      subst hm
      simp [transcriptLoop]
    | succ j =>
      simp only [List.getElem?_cons_succ] at hm
      have h := ih (transcriptStep engine workdir sz language force st x).2 j hm
      simp only [transcriptLoop, List.take_succ_cons, List.getElem?_cons_succ]
      exact h

theorem transcriptStep_missing (engine : Engine) (workdir sz language : String) (force : Bool)
    (st : TranscriptState) (msg : Message) (media : Media) (path : String)
    (hmedia : msg.Media = some media) (hpath : media.FilePath = some path)
    (hstat : st.fs.stat (workdir ++ "/" ++ path) = .error .notExist) :
    transcriptStep engine workdir sz language force st (some msg) = (some msg, st) := by
  simp only [transcriptStep, hmedia, hpath, hstat]
  split <;> rfl

theorem transcribeAndRead_calls (engine : Engine) (sz language : String) (force : Bool)
    (st : TranscriptState) (msg : Message) (media : Media) (absPath : String)
    (errNotExist : Bool) :
    (transcribeAndRead engine sz language force st msg media absPath errNotExist).2.calls =
      if errNotExist || force then st.calls ++ [whisperArgs absPath sz language]
      else st.calls := by
  unfold transcribeAndRead
  cases hb : (errNotExist || force)
  · simp only [Bool.false_eq_true, if_false, Bool.not_true]
    split <;> rfl
  · simp only [if_true]
    cases (engine st.fs (whisperArgs absPath sz language)).1
    · rfl
    · simp only [Bool.not_true, Bool.false_eq_true, if_false]
      split <;> rfl

/-- The engine runs made by the loop body for an Opus media with a path whose
source file is not reported missing. -/
theorem transcriptStep_calls (engine : Engine) (workdir sz language : String) (force : Bool)
    (st : TranscriptState) (msg : Message) (media : Media) (path : String)
    (hmedia : msg.Media = some media) (hpath : media.FilePath = some path)
    (hmime : media.MimeType = some MimeTypeOpus)
    (hexists : st.fs.stat (workdir ++ "/" ++ path) ≠ .error .notExist) :
    (transcriptStep engine workdir sz language force st (some msg)).2.calls =
      if st.fs.stat (workdir ++ "/" ++ path ++ ".txt") = .error .notExist ∨
          (force = true ∧ st.fs.stat (workdir ++ "/" ++ path ++ ".txt") ≠ .error .other) then
        st.calls ++ [whisperArgs (workdir ++ "/" ++ path) sz language]
      else st.calls := by
  simp only [transcriptStep, hmedia, hpath, hmime]
  simp only [Option.isNone_some, bne_self_eq_false, Bool.or_self, Bool.false_eq_true, if_false]
  have key : ∀ y : Except FsErr Int,
      (match y with
        | .error .notExist =>
          transcribeAndRead engine sz language force st msg media (workdir ++ "/" ++ path) true
        | .error .other => (some msg, st)
        | _ =>
          transcribeAndRead engine sz language force st msg media (workdir ++ "/" ++ path)
            false).2.calls =
        if y = .error .notExist ∨ (force = true ∧ y ≠ .error .other) then
          st.calls ++ [whisperArgs (workdir ++ "/" ++ path) sz language]
        else st.calls := by
    intro y
    rcases y with (_ | _ | _) | _ <;>
      (simp only [transcribeAndRead_calls]; cases force <;> simp)
  exact key _

/-- The loop body either runs the engine no time, or once with an argument
vector built by `whisperArgs`. -/
theorem transcriptStep_calls_cases (engine : Engine) (workdir sz language : String)
    (force : Bool) (st : TranscriptState) (m : Option Message) :
    (transcriptStep engine workdir sz language force st m).2.calls = st.calls ∨
    ∃ absPath : String,
      (transcriptStep engine workdir sz language force st m).2.calls =
        st.calls ++ [whisperArgs absPath sz language] := by
  have key : ∀ (msg : Message) (media : Media) (absPath : String) (b : Bool),
      (transcribeAndRead engine sz language force st msg media absPath b).2.calls = st.calls ∨
      ∃ p : String,
        (transcribeAndRead engine sz language force st msg media absPath b).2.calls =
          st.calls ++ [whisperArgs p sz language] := by
    intro msg media absPath b
    rw [transcribeAndRead_calls]
    split
    · exact Or.inr ⟨absPath, rfl⟩
    · exact Or.inl rfl
  unfold transcriptStep
  split
  · exact Or.inl rfl
  · split
    · exact Or.inl rfl
    · split
      · exact Or.inl rfl
      · split
        · exact Or.inl rfl
        · dsimp only
          split
          · exact Or.inl rfl
          · split
            · exact key _ _ _ _
            · exact Or.inl rfl
            · exact key _ _ _ _

theorem whisperArgs_model (absPath sz language : String) :
    (whisperArgs absPath sz language)[1]? = some "--model" ∧
    (whisperArgs absPath sz language)[2]? = some sz := by
  unfold whisperArgs
  split <;> exact ⟨rfl, rfl⟩

theorem transcriptLoop_calls_model (engine : Engine) (workdir sz language : String)
    (force : Bool) (msgs : List (Option Message)) (st : TranscriptState)
    (hst : ∀ args ∈ st.calls, args[1]? = some "--model" ∧ args[2]? = some sz) :
    ∀ args ∈ (transcriptLoop engine workdir sz language force st msgs).2.calls,
      args[1]? = some "--model" ∧ args[2]? = some sz := by
  induction msgs generalizing st with
  | nil => simpa [transcriptLoop] using hst
  | cons m rest ih =>
    simp only [transcriptLoop]
    apply ih
    intro args hargs
    rcases transcriptStep_calls_cases engine workdir sz language force st m with h | ⟨p, h⟩
    · rw [h] at hargs; exact hst args hargs
    · rw [h] at hargs
      rcases List.mem_append.mp hargs with h1 | h1
      · exact hst args h1
      · rw [List.mem_singleton] at h1
        subst h1
        exact whisperArgs_model p sz language

/-! ## Lemmas on the frame -/

theorem MediaFrame_refl (a : Media) : MediaFrame a a :=
  ⟨rfl, rfl, rfl, rfl, id, id, id⟩

theorem MediaFrame_trans (a b c : Media) (hab : MediaFrame a b) (hbc : MediaFrame b c) :
    MediaFrame a c := by
  obtain ⟨h1, h2, h3, h4, h5, h6, h7⟩ := hab
  obtain ⟨k1, k2, k3, k4, k5, k6, k7⟩ := hbc
  exact ⟨k1.trans h1, k2.trans h2, k3.trans h3, k4.trans h4,
    fun h => k5 (h5 h), fun h => k6 (h6 h), fun h => k7 (h7 h)⟩

theorem MessageFrame_refl (a : Option Message) : MessageFrame a a := by
  rcases a with _ | msg
  · simp [MessageFrame]
  · rcases hM : msg.Media with _ | media
    · simp [MessageFrame, hM]
    · rcases hP : media.FilePath with _ | path
      · simp [MessageFrame, hM, hP]
      · simp only [MessageFrame, hM, hP]
        refine ⟨media, MediaFrame_refl media, ?_⟩
        cases msg
        simp only at hM
        subst hM
        rfl

/-- A message with media and path whose media record is replaced within
`MediaFrame` is within `MessageFrame`. -/
theorem MessageFrame_update (msg : Message) (media media1 : Media) (path : String)
    (hM : msg.Media = some media) (hP : media.FilePath = some path)
    (hF : MediaFrame media media1) :
    MessageFrame (some msg) (some { msg with Media := some media1 }) := by
  simp only [MessageFrame, hM, hP]
  exact ⟨media1, hF, rfl⟩

theorem MessageFrame_trans (a b c : Option Message) (hab : MessageFrame a b)
    (hbc : MessageFrame b c) : MessageFrame a c := by
  rcases a with _ | msg
  · simp only [MessageFrame] at hab
    subst hab
    exact hbc
  · rcases hM : msg.Media with _ | media
    · simp only [MessageFrame, hM] at hab
      subst hab
      exact hbc
    · rcases hP : media.FilePath with _ | path
      · simp only [MessageFrame, hM, hP] at hab
        subst hab
        exact hbc
      · simp only [MessageFrame, hM, hP] at hab ⊢
        obtain ⟨media1, hF1, rfl⟩ := hab
        have hP1 : media1.FilePath = some path := hF1.1.trans hP
        simp only [MessageFrame, hP1] at hbc
        obtain ⟨media2, hF2, rfl⟩ := hbc
        exact ⟨media2, MediaFrame_trans _ _ _ hF1 hF2, rfl⟩

theorem readSidecar_frame (fs : FS) (absPath : String) (media : Media) :
    MediaFrame media (readSidecar fs absPath media) := by
  unfold readSidecar
  split
  · exact ⟨rfl, rfl, rfl, rfl, fun _ => rfl, id, id⟩
  · exact MediaFrame_refl _
  · exact ⟨rfl, rfl, rfl, rfl, fun _ => rfl, id, id⟩

theorem probeDuration_frame (fs : FS) (absPath : String) (media : Media) :
    MediaFrame media (probeDuration fs absPath media) := by
  unfold probeDuration
  split
  · exact MediaFrame_refl _
  · exact ⟨rfl, rfl, rfl, rfl, id, fun _ => rfl, id⟩

theorem metadataStep_frame (workdir : String) (fs : FS) (bar : Nat) (m : Option Message) :
    MessageFrame m (metadataStep workdir fs bar m).1 := by
  rcases m with _ | msg
  · simp [metadataStep, MessageFrame]
  · rcases hM : msg.Media with _ | media
    · simp [metadataStep, MessageFrame, hM]
    · obtain ⟨fp, uuid, mid, mime, text, len, sz⟩ := media
      rcases fp with _ | path
      · simp [metadataStep, MessageFrame, hM]
      · simp only [metadataStep, hM]
        have hsize : ∀ size : Int,
            MediaFrame ⟨some path, uuid, mid, mime, text, len, sz⟩
              ⟨some path, uuid, mid, mime, text, len, some size⟩ :=
          fun size => ⟨rfl, rfl, rfl, rfl, id, id, fun _ => rfl⟩
        split
        · exact MessageFrame_refl _
        · split
          · exact MessageFrame_update msg _ _ path hM rfl (hsize _)
          · exact MessageFrame_update msg _ _ path hM rfl
              (MediaFrame_trans _ _ _ (hsize _)
                (MediaFrame_trans _ _ _ (readSidecar_frame fs _ _) (probeDuration_frame fs _ _)))

theorem metadataLoop_frame (workdir : String) (fs : FS) (bar : Nat)
    (msgs : List (Option Message)) :
    List.Forall₂ MessageFrame msgs (metadataLoop workdir fs bar msgs).1 := by
  induction msgs generalizing bar with
  | nil => exact List.Forall₂.nil
  | cons m rest ih =>
    simp only [metadataLoop]
    exact List.Forall₂.cons (metadataStep_frame workdir fs bar m) (ih _)

/-- The sidecar read-back either leaves the message alone or stores a text. -/
theorem transcribeAndRead_fst (engine : Engine) (sz language : String) (force : Bool)
    (st : TranscriptState) (msg : Message) (media : Media) (absPath : String) (b : Bool) :
    (transcribeAndRead engine sz language force st msg media absPath b).1 = some msg ∨
    ∃ text : String,
      (transcribeAndRead engine sz language force st msg media absPath b).1 =
        some { msg with Media := some { media with Transcription := some text } } := by
  unfold transcribeAndRead
  cases hb : (b || force)
  · simp only [Bool.false_eq_true, if_false, Bool.not_true]
    split
    · exact Or.inl rfl
    · exact Or.inr ⟨_, rfl⟩
  · simp only [if_true]
    cases (engine st.fs (whisperArgs absPath sz language)).1
    · exact Or.inl rfl
    · simp only [Bool.not_true, Bool.false_eq_true, if_false]
      split
      · exact Or.inl rfl
      · exact Or.inr ⟨_, rfl⟩

theorem transcribeAndRead_frame (engine : Engine) (sz language : String) (force : Bool)
    (st : TranscriptState) (msg : Message) (media : Media) (path absPath : String)
    (b : Bool) (hM : msg.Media = some media) (hP : media.FilePath = some path) :
    MessageFrame (some msg)
      (transcribeAndRead engine sz language force st msg media absPath b).1 := by
  rcases transcribeAndRead_fst engine sz language force st msg media absPath b with h | ⟨t, h⟩
  · rw [h]; exact MessageFrame_refl _
  · rw [h]
    exact MessageFrame_update msg media _ path hM hP
      ⟨rfl, rfl, rfl, rfl, fun _ => rfl, id, id⟩

theorem transcriptStep_frame (engine : Engine) (workdir sz language : String) (force : Bool)
    (st : TranscriptState) (m : Option Message) :
    MessageFrame m (transcriptStep engine workdir sz language force st m).1 := by
  rcases m with _ | msg
  · simp [transcriptStep, MessageFrame]
  · rcases hM : msg.Media with _ | media
    · simp [transcriptStep, MessageFrame, hM]
    · rcases hP : media.FilePath with _ | path
      · simp [transcriptStep, MessageFrame, hM, hP]
      · have key : ∀ b : Bool, MessageFrame (some msg)
            (transcribeAndRead engine sz language force st msg media (workdir ++ "/" ++ path)
              b).1 :=
          fun b => transcribeAndRead_frame engine sz language force st msg media path _ b hM hP
        simp only [transcriptStep, hM, hP]
        split
        · exact MessageFrame_refl _
        · split
          · exact MessageFrame_refl _
          · split
            · exact key true
            · exact MessageFrame_refl _
            · exact key false

theorem transcriptLoop_frame (engine : Engine) (workdir sz language : String) (force : Bool)
    (st : TranscriptState) (msgs : List (Option Message)) :
    List.Forall₂ MessageFrame msgs
      (transcriptLoop engine workdir sz language force st msgs).1 := by
  induction msgs generalizing st with
  | nil => exact List.Forall₂.nil
  | cons m rest ih =>
    simp only [transcriptLoop]
    exact List.Forall₂.cons (transcriptStep_frame engine workdir sz language force st m) (ih _)

theorem Forall₂_MessageFrame_trans (xs ys zs : List (Option Message))
    (h1 : List.Forall₂ MessageFrame xs ys) (h2 : List.Forall₂ MessageFrame ys zs) :
    List.Forall₂ MessageFrame xs zs := by
  induction h1 generalizing zs with
  | nil => cases h2; exact List.Forall₂.nil
  | cons hab _ ih =>
    cases h2 with
    | cons hbc hrest => exact List.Forall₂.cons (MessageFrame_trans _ _ _ hab hbc) (ih _ hrest)

theorem metadata_ChatFrame (fs : FS) (chat : Chat) (workdir : String) (fileCount : Nat) :
    ChatFrame chat (getMetadataInformation fs chat workdir fileCount).1 :=
  ⟨rfl, rfl, metadataLoop_frame workdir fs 0 chat.Messages⟩

theorem transcripts_ChatFrame (engine : Engine) (fs : FS) (chat : Chat)
    (quality language workdir : String) (opusFileCount : Nat) (force : Bool) :
    ChatFrame chat
      (generateAudioTranscripts engine fs chat quality language workdir opusFileCount force).1 :=
  ⟨rfl, rfl, transcriptLoop_frame engine workdir (modelSize quality) language force _ _⟩

/-! ## Claims -/

/-- C1: in pass 1, a message whose media has a file path and whose backing
file can be stat'ed gets `FileSizeByte` set to the size the stat reported,
whatever the MIME type, the sidecar read and the duration probe give; and when
the duration probe fails, `AudioLengthSeconds` is what it was before. -/
theorem C1_size_always_applied (fs : FS) (chat : Chat) (workdir : String) (fileCount i : Nat)
    (msg : Message) (media : Media) (path : String) (size : Int)
    (hmsg : chat.Messages[i]? = some (some msg))
    (hmedia : msg.Media = some media)
    (hpath : media.FilePath = some path)
    (hstat : fs.stat (workdir ++ "/" ++ path) = .ok size) :
    ∃ media1 : Media,
      (getMetadataInformation fs chat workdir fileCount).1.Messages[i]? =
        some (some { msg with Media := some media1 }) ∧
      media1.FileSizeByte = some size ∧
      (fs.probe (workdir ++ "/" ++ path) = none →
        media1.AudioLengthSeconds = media.AudioLengthSeconds) := by
  rw [metadata_getElem, hmsg]
  simp only [Option.map_some', metadataStep, hmedia, hpath, hstat]
  split
  · exact ⟨_, rfl, rfl, fun _ => rfl⟩
  · refine ⟨_, rfl, ?_, ?_⟩
    · rw [probeDuration_size, readSidecar_size]
    · intro hp
      simp only [probeDuration, hp, readSidecar_length]

/-- C1 at the scenario of the picture of 2048 bytes. -/
theorem C1_size_always_applied_witness :
    ∃ media1 : Media,
      (getMetadataInformation imageFS imageChat "w" 1).1.Messages[0]? =
        some (some { mkMessage (mkMedia "img1.jpg" (some "image/jpeg")) with
          Media := some media1 }) ∧
      media1.FileSizeByte = some 2048 ∧
      (imageFS.probe ("w" ++ "/" ++ "img1.jpg") = none →
        media1.AudioLengthSeconds = (mkMedia "img1.jpg" (some "image/jpeg")).AudioLengthSeconds) :=
  C1_size_always_applied imageFS imageChat "w" 1 0
    (mkMessage (mkMedia "img1.jpg" (some "image/jpeg")))
    (mkMedia "img1.jpg" (some "image/jpeg")) "img1.jpg" 2048 rfl rfl rfl rfl

/-- C2: a message whose media has a file path but whose backing file does not
exist (when pass 1 stats it, and when the loop of pass 2 reaches it), and whose
`FileSizeByte`, `AudioLengthSeconds` and `Transcription` are absent, still has
all three absent after pass 1 followed by pass 2, for every quality, language
and force; and pass 2 runs the engine no time for that message: the list of
engine runs is the same after the message as before it. -/
theorem C2_missing_file_stays_absent (engine : Engine) (fs : FS) (chat : Chat)
    (workdir quality language : String) (force : Bool) (i : Nat)
    (msg : Message) (media : Media) (path : String)
    (hmsg : chat.Messages[i]? = some (some msg))
    (hmedia : msg.Media = some media)
    (hpath : media.FilePath = some path)
    (hsize : media.FileSizeByte = none)
    (hlength : media.AudioLengthSeconds = none)
    (htext : media.Transcription = none)
    (hmissing1 : fs.stat (workdir ++ "/" ++ path) = .error .notExist)
    (hmissing2 : (stateBefore engine fs
        (getMetadataInformation fs chat workdir (getMediaAndMessageFileCount chat).1).1
        quality language workdir force i).fs.stat (workdir ++ "/" ++ path) = .error .notExist) :
    (∃ msg1 media1 : _,
      (enrich engine fs chat workdir true quality language force).chat.Messages[i]? =
        some (some msg1) ∧
      msg1.Media = some media1 ∧
      media1.FileSizeByte = none ∧ media1.AudioLengthSeconds = none ∧
      media1.Transcription = none) ∧
    (stateBefore engine fs
        (getMetadataInformation fs chat workdir (getMediaAndMessageFileCount chat).1).1
        quality language workdir force (i + 1)).calls =
      (stateBefore engine fs
        (getMetadataInformation fs chat workdir (getMediaAndMessageFileCount chat).1).1
        quality language workdir force i).calls := by
  have h1 : (getMetadataInformation fs chat workdir
      (getMediaAndMessageFileCount chat).1).1.Messages[i]? = some (some msg) := by
    rw [metadata_getElem, hmsg]
    simp only [Option.map_some', metadataStep, hmedia, hpath, hmissing1]
  have h2 := transcriptLoop_at engine workdir (modelSize quality) language force ⟨fs, 0, []⟩
    _ i _ h1
  have h3 := transcriptStep_missing engine workdir (modelSize quality) language force
    _ msg media path hmedia hpath hmissing2
  unfold stateBefore at h3
  rw [h3] at h2
  refine ⟨⟨msg, media, ?_, hmedia, hsize, hlength, htext⟩, ?_⟩
  · simp only [enrich, generateAudioTranscripts, if_true]
    exact h2.1
  · unfold stateBefore
    rw [h2.2]

/-- C2 at the second of two voice messages: the file of the first exists and
is transcribed, the file of the second is missing. -/
theorem C2_missing_file_stays_absent_witness :
    (∃ msg1 media1 : _,
      (enrich (writingEngine "hello\n") voiceFS twoVoiceChat "w" true "high" "de"
        true).chat.Messages[1]? = some (some msg1) ∧
      msg1.Media = some media1 ∧
      media1.FileSizeByte = none ∧ media1.AudioLengthSeconds = none ∧
      media1.Transcription = none) ∧
    (stateBefore (writingEngine "hello\n") voiceFS
        (getMetadataInformation voiceFS twoVoiceChat "w"
          (getMediaAndMessageFileCount twoVoiceChat).1).1
        "high" "de" "w" true (1 + 1)).calls =
      (stateBefore (writingEngine "hello\n") voiceFS
        (getMetadataInformation voiceFS twoVoiceChat "w"
          (getMediaAndMessageFileCount twoVoiceChat).1).1
        "high" "de" "w" true 1).calls :=
  C2_missing_file_stays_absent (writingEngine "hello\n") voiceFS twoVoiceChat "w" "high" "de"
    true 1 (mkMessage (mkMedia "voice2.opus" (some MimeTypeOpus)))
    (mkMedia "voice2.opus" (some MimeTypeOpus)) "voice2.opus" rfl rfl rfl rfl rfl rfl
    (by decide) (by decide)

/-- C3, amended: for a message whose media has a file path and the Opus MIME
type and whose source file is not reported missing when the loop of pass 2
reaches it, pass 2 runs the engine for that message (once, with the argument
vector of that file) exactly when the stat of the sidecar reports not-exist, or
force is set and the stat of the sidecar did not fail with another error;
otherwise the list of engine runs is the same after the message as before. -/
theorem C3_engine_run_iff (engine : Engine) (fs : FS) (chat : Chat)
    (workdir quality language : String) (force : Bool) (i : Nat)
    (msg : Message) (media : Media) (path : String)
    (hmsg : chat.Messages[i]? = some (some msg))
    (hmedia : msg.Media = some media)
    (hpath : media.FilePath = some path)
    (hmime : media.MimeType = some MimeTypeOpus)
    (hexists : (stateBefore engine fs chat quality language workdir force i).fs.stat
        (workdir ++ "/" ++ path) ≠ .error .notExist) :
    (stateBefore engine fs chat quality language workdir force (i + 1)).calls =
      if (stateBefore engine fs chat quality language workdir force i).fs.stat
            (workdir ++ "/" ++ path ++ ".txt") = .error .notExist ∨
          (force = true ∧
            (stateBefore engine fs chat quality language workdir force i).fs.stat
              (workdir ++ "/" ++ path ++ ".txt") ≠ .error .other) then
        (stateBefore engine fs chat quality language workdir force i).calls ++
          [whisperArgs (workdir ++ "/" ++ path) (modelSize quality) language]
      else
        (stateBefore engine fs chat quality language workdir force i).calls := by
  have h2 := (transcriptLoop_at engine workdir (modelSize quality) language force ⟨fs, 0, []⟩
    _ i _ hmsg).2
  have h3 := transcriptStep_calls engine workdir (modelSize quality) language force
    _ msg media path hmedia hpath hmime hexists
  unfold stateBefore at *
  rw [h2, h3]

/-- C3, amended, at the voice message without a sidecar and force unset: the
engine is run once. -/
theorem C3_engine_run_iff_witness :
    (stateBefore (writingEngine "hello\n") voiceFS voiceChat "low" "" "w" false (0 + 1)).calls =
      [["w/voice1.opus", "--model", "small", "--output_dir", "w"]] := by
  have h := C3_engine_run_iff (writingEngine "hello\n") voiceFS voiceChat "w" "low" "" false 0
    (mkMessage (mkMedia "voice1.opus" (some MimeTypeOpus)))
    (mkMedia "voice1.opus" (some MimeTypeOpus)) "voice1.opus" rfl rfl rfl rfl (by decide)
  rw [h]
  decide

/-- C3 as stated fails: the voice file exists and force is set, but the stat of
the sidecar fails with an error other than not-exist, and pass 2 runs the
engine no time. -/
theorem C3_counterexample :
    brokenSidecarFS.stat ("w" ++ "/" ++ "voice1.opus") = .ok 4096 ∧
    (generateAudioTranscripts okEngine brokenSidecarFS voiceChat "medium" "" "w" 1 true).2.calls
      = [] := by
  decide

/-- C4 fails on the code: with the sidecar holding `hello` and a newline and
force unset, pass 1 stores the trimmed text `hello`, but pass 2 (which runs the
engine no time) overwrites it with the raw contents of the sidecar, newline
included (lines 360-363 have no `strings.TrimSpace`). -/
theorem C4_pass2_stores_untrimmed_text :
    (mediaAt (getMetadataInformation helloFS voiceChat "w" 1).1 0).bind
        (fun m => m.Transcription) = some "hello" ∧
    TrimSpace "hello\n" = "hello" ∧
    (mediaAt (enrich okEngine helloFS voiceChat "w" true "medium" "" false).chat 0).bind
        (fun m => m.Transcription) = some "hello\n" ∧
    (generateAudioTranscripts okEngine helloFS
        (getMetadataInformation helloFS voiceChat "w" 1).1 "medium" "" "w" 1 false).2.calls
      = [] := by
  decide

/-- C5 fails on the code: for an Opus voice message whose file exists and whose
sidecar does not, pass 1 leaves a present empty transcription, because the
`else` branch of line 273 is also taken on `os.ErrNotExist`. -/
theorem C5_missing_sidecar_gives_empty_text :
    voiceFS.stat ("w" ++ "/" ++ "voice1.opus") = .ok 4096 ∧
    voiceFS.readFile ("w" ++ "/" ++ "voice1.opus" ++ ".txt") = .error .notExist ∧
    (mediaAt voiceChat 0).bind (fun m => m.Transcription) = none ∧
    (mediaAt (getMetadataInformation voiceFS voiceChat "w" 1).1 0).bind
        (fun m => m.Transcription) = some "" := by
  decide

/-- C6 fails on the code: a media with a file path and no MIME type passes the
gate of line 266, so pass 1 reads its sidecar and probes its duration, and
after both passes it has a transcription and a duration while its MIME type is
still unset. -/
theorem C6_untyped_media_gets_transcription :
    mediaAt untypedChat 0 = some (mkMedia "voice1.opus" none) ∧
    mediaAt (enrich okEngine helloFS untypedChat "w" true "medium" "" false).chat 0 =
      some ⟨some "voice1.opus", none, none, none, some "hello",
        some ⟨0x4024000000000000⟩, some 4096⟩ := by
  decide

/-- C9: the quality switch of `generateAudioTranscripts` is a total function
of the quality string: `low` gives `small`, `medium` gives `medium`, `high`
gives `large`, every other string (the empty string and `High` among them)
gives `medium`; the result is always one of the three sizes, and it is the
argument that follows `--model` in every engine run of pass 2. -/
theorem C9_quality_mapping :
    modelSize "low" = "small" ∧ modelSize "medium" = "medium" ∧
    modelSize "high" = "large" ∧ modelSize "" = "medium" ∧ modelSize "High" = "medium" ∧
    (∀ q : String, q ≠ "low" → q ≠ "medium" → q ≠ "high" → modelSize q = "medium") ∧
    (∀ q : String, modelSize q = "small" ∨ modelSize q = "medium" ∨ modelSize q = "large") ∧
    (∀ (engine : Engine) (fs : FS) (chat : Chat) (quality language workdir : String)
        (opusFileCount : Nat) (force : Bool) (args : List String),
      args ∈ (generateAudioTranscripts engine fs chat quality language workdir
          opusFileCount force).2.calls →
      args[1]? = some "--model" ∧ args[2]? = some (modelSize quality)) := by
  refine ⟨by decide, by decide, by decide, by decide, by decide, ?_, ?_, ?_⟩
  · intro q h1 h2 h3
    simp [modelSize, h1, h2, h3]
  · intro q
    unfold modelSize
    split
    · exact Or.inl rfl
    · split
      · exact Or.inr (Or.inl rfl)
      · split
        · exact Or.inr (Or.inr rfl)
        · exact Or.inr (Or.inl rfl)
  · intro engine fs chat quality language workdir opusFileCount force args hargs
    exact transcriptLoop_calls_model engine workdir (modelSize quality) language force
      chat.Messages ⟨fs, 0, []⟩ (by simp) args hargs

/-- C9 at the quality `fast`, which is none of the three names, and at the one
engine run of pass 2 on the voice message with quality `high`. -/
theorem C9_quality_mapping_witness :
    modelSize "fast" = "medium" ∧
    ["w/voice1.opus", "--model", "large", "--output_dir", "w", "--language", "de"] ∈
      (generateAudioTranscripts (writingEngine "hello\n") voiceFS voiceChat "high" "de" "w" 1
        false).2.calls ∧
    (["w/voice1.opus", "--model", "large", "--output_dir", "w", "--language", "de"][2]? =
      some (modelSize "high")) :=
  ⟨C9_quality_mapping.2.2.2.2.2.1 "fast" (by decide) (by decide) (by decide),
   by decide,
   (C9_quality_mapping.2.2.2.2.2.2.2 (writingEngine "hello\n") voiceFS voiceChat "high" "de" "w" 1
      false _ (by decide)).2⟩

/-- C8: pass 1 is idempotent: on a fixed filesystem, running it on its own
output gives the same chat (so the same `FileSizeByte`, `AudioLengthSeconds`
and `Transcription` in every message) and the same final progress counter as
running it once. -/
theorem C8_pass1_idempotent (fs : FS) (chat : Chat) (workdir : String)
    (fileCount fileCount2 : Nat) :
    getMetadataInformation fs (getMetadataInformation fs chat workdir fileCount).1 workdir
        fileCount2 =
      getMetadataInformation fs chat workdir fileCount := by
  simp only [getMetadataInformation, metadataLoop_idem]

/-- C7: pass 1, pass 2, and the pipeline of `main` with or without pass 2,
keep the chat within `ChatFrame`, for every filesystem and engine: the
messages stay in number and order; a nil entry, a message with no media and a
message whose media has no file path are unchanged; in any other message only
`FileSizeByte`, `AudioLengthSeconds` and `Transcription` of the media may
change, and none of them goes from present to absent. -/
theorem C7_passes_keep_frame (engine : Engine) (fs : FS) (chat : Chat)
    (workdir quality language : String) (fileCount opusFileCount : Nat)
    (transcriptAudioFiles force : Bool) :
    ChatFrame chat (getMetadataInformation fs chat workdir fileCount).1 ∧
    ChatFrame chat
      (generateAudioTranscripts engine fs chat quality language workdir opusFileCount
        force).1 ∧
    ChatFrame chat
      (enrich engine fs chat workdir transcriptAudioFiles quality language force).chat := by
  refine ⟨metadata_ChatFrame fs chat workdir fileCount,
    transcripts_ChatFrame engine fs chat quality language workdir opusFileCount force, ?_⟩
  unfold enrich
  dsimp only
  split
  · have h1 := metadata_ChatFrame fs chat workdir (getMediaAndMessageFileCount chat).1
    have h2 := transcripts_ChatFrame engine fs
      (getMetadataInformation fs chat workdir (getMediaAndMessageFileCount chat).1).1
      quality language workdir (getMediaAndMessageFileCount chat).2 force
    exact ⟨h2.1.trans h1.1, h2.2.1.trans h1.2.1,
      Forall₂_MessageFrame_trans _ _ _ h1.2.2 h2.2.2⟩
  · exact metadata_ChatFrame fs chat workdir (getMediaAndMessageFileCount chat).1

/-- C10: pass 1 ends with its progress counter equal to the count of messages
with a media file path, for every chat and filesystem.  Pass 2 does not: on a
chat of one Opus voice message whose file is missing, the Opus count is 1 but
the counter of pass 2 ends at 0, because `bar.Add(1)` (line 365) is only
reached after the sidecar was read back. -/
theorem C10_progress_counters :
    (∀ (fs : FS) (chat : Chat) (workdir : String) (fileCount : Nat),
      (getMetadataInformation fs chat workdir fileCount).2 =
        (getMediaAndMessageFileCount chat).1) ∧
    getMediaAndMessageFileCount voiceChat = (1, 1) ∧
    (getMetadataInformation emptyFS voiceChat "w" 1).2 = 1 ∧
    (generateAudioTranscripts idleEngine emptyFS
      (getMetadataInformation emptyFS voiceChat "w" 1).1 "medium" "" "w" 1 false).2.bar = 0 := by
  refine ⟨?_, by decide, by decide, by decide⟩
  intro fs chat workdir fileCount
  simp [getMetadataInformation, getMediaAndMessageFileCount, metadataLoop_bar]

end WaAnalyzer
